import Mathlib

/-!
Shallow embedding of the core pipeline of `ollama_websearch` (`main.ts`):
the URL filter and search client (`getNewsUrls`), the in-memory cache
(`SimpleCache`), the parallel retrieval coordinator (`getCleanedText`),
and the model-fallback summarizer (`answerQuery`).

Machine integers of the source (timestamps in milliseconds, lengths)
are modelled as `Int`/`Nat`; the values involved stay far below any
floating-point precision boundary of the source language, so plain
integer arithmetic is faithful.  External collaborators (the WHATWG
URL constructor, the readability extractor, the inference backend and
the network) are modelled as explicit parameters or small inductive
"world" descriptions, one constructor per behaviour the source code
distinguishes.
-/

/- ### String helpers (JS `String.prototype.includes` / `endsWith`) -/

/-- Does the list `s` start with `pat`?  (helper for substring search). -/
def startsList : List Char → List Char → Bool
  | [], _ => true
  | _ :: _, [] => false
  | p :: ps, c :: cs => (p == c) && startsList ps cs

/-- Does the list `s` contain `pat` as a contiguous run? -/
def hasSubList (pat : List Char) : List Char → Bool
  | [] => startsList pat []
  | c :: cs => startsList pat (c :: cs) || hasSubList pat cs

/-- JS `s.includes(pat)`. -/
def containsSub (s pat : String) : Bool :=
  hasSubList pat.data s.data

/-- JS `s.endsWith(pat)`. -/
def endsSub (s pat : String) : Bool :=
  startsList pat.data.reverse s.data.reverse

/- ### URL filter (`getNewsUrls`, main.ts lines 312-326) -/

/-- Characters allowed in a URL scheme after the first (RFC 3986 / WHATWG). -/
def isSchemeChar (c : Char) : Bool :=
  c.isAlpha || c.isDigit || c == '+' || c == '-' || c == '.'

/-- The WHATWG "special" schemes that require a nonempty host. -/
def specialSchemes : List String := ["http", "https", "ws", "wss", "ftp"]

/-- Lower-cased scheme prefix of a string (the run of scheme characters
before the first colon). -/
def schemeOf (s : String) : String :=
  String.mk ((s.data.takeWhile isSchemeChar).map Char.toLower)

/-- Modelled platform behaviour: does `new URL(s)` (the WHATWG URL
constructor, external to the repository) succeed on `s` with no base URL?
Simplified model: the string must begin with an alphabetic character,
followed by a run of scheme characters and a colon; for the special
network schemes a nonempty, space-free host must follow (after any run
of slashes); for every other scheme the remainder is an opaque path and
parsing succeeds. -/
def jsURLParses (s : String) : Bool :=
  match s.data with
  | [] => false
  | c :: _ =>
    if !c.isAlpha then false
    else
      match s.data.drop (s.data.takeWhile isSchemeChar).length with
      | ':' :: tail =>
        if specialSchemes.contains (schemeOf s) then
          let afterSlashes := tail.dropWhile (fun d => d == '/' || d == '\\')
          let host := afterSlashes.takeWhile
            (fun d => !(d == '/' || d == '?' || d == '#' || d == '\\' || d == ':'))
          !host.isEmpty && !(host.contains ' ')
        else true
      | _ => false

/-- Does `u` match the source's fixed denylist (main.ts lines 316-320):
Reddit threads, Twitter, Facebook, `.pdf` suffix, YouTube watch pages? -/
def denyMatch (u : String) : Bool :=
  containsSub u "reddit.com/r/" || containsSub u "twitter.com" ||
  containsSub u "facebook.com" || endsSub u ".pdf" ||
  containsSub u "youtube.com/watch"

/-- The URL filter of `getNewsUrls` (main.ts lines 313-324): `new URL(u)`
must succeed (a parse failure is caught and yields `false`), and then
none of the denylist patterns may match. -/
def isEligible (u : String) : Bool :=
  if jsURLParses u then
    !containsSub u "reddit.com/r/" && !containsSub u "twitter.com" &&
    !containsSub u "facebook.com" && !endsSub u ".pdf" &&
    !containsSub u "youtube.com/watch"
  else false

/-- Claim-side notion (from the spec wording, for comparison with the
code): `u` parses as an absolute URL and its scheme is a network scheme. -/
def hasNetworkScheme (u : String) : Bool :=
  jsURLParses u && specialSchemes.contains (schemeOf u)

/- ### Search client (`getNewsUrls`, main.ts lines 278-342) -/

/-- One entry of the search backend's `results` array (only `url` is
consumed by the core). -/
structure SearchResult where
  url : String
deriving DecidableEq

/-- Outcome of `searchResults.json()` on the response body. -/
inductive SearchBody
  | malformed
  | parsed (results : Option (List SearchResult))
deriving DecidableEq

/-- Behaviour of the one search-backend HTTP request: the request can
time out (AbortError), fail at the network level (`fetch` rejects,
e.g. connection refused), or produce a response with a success flag
(`response.ok`), a status code and a body. -/
inductive SearchNet
  | timeout
  | netError (msg : String)
  | response (status : Nat) (ok : Bool) (body : SearchBody)
deriving DecidableEq

/-- The pure selection core of `getNewsUrls` (main.ts lines 312-326):
filter the results through the URL filter, project to the URL, then
`slice(0, maxResults)`. -/
def selectUrls (rs : List SearchResult) (maxResults : Nat) : List String :=
  ((rs.filter (fun r => isEligible r.url)).map (fun r => r.url)).take maxResults

/-- `getNewsUrls` (main.ts lines 278-342), with the network behaviour as
an explicit parameter.  Any thrown error is rethrown wrapped (the catch
block), so the function is `Except`-valued; a missing or empty `results`
array returns `[]` (main.ts lines 306-309). -/
def getNewsUrls (net : SearchNet) (maxResults : Nat) : Except String (List String) :=
  match net with
  | .timeout =>
    .error "Search request timed out. Please try again or check your SearXNG instance."
  | .netError msg => .error ("Search failed: " ++ msg)
  | .response status ok body =>
    if !ok then
      .error ("Search failed: Search API returned " ++ toString status)
    else
      match body with
      | .malformed => .error "Search failed: malformed response body"
      | .parsed none => .ok []
      | .parsed (some rs) =>
        if rs.length == 0 then .ok []
        else .ok (selectUrls rs maxResults)

/-- Claim-side failure condition of C5 (non-success HTTP status, timeout,
or malformed body) — note it does not list network-level request errors. -/
def claimedSearchFailure (net : SearchNet) : Bool :=
  match net with
  | .timeout => true
  | .netError _ => false
  | .response _ ok body =>
    !ok || (match body with | .malformed => true | _ => false)

/-- Amended failure condition: the code also fails when the request
itself fails at the network level. -/
def searchFailure (net : SearchNet) : Bool :=
  match net with
  | .timeout => true
  | .netError _ => true
  | .response _ ok body =>
    !ok || (match body with | .malformed => true | _ => false)

/- ### Cache (`SimpleCache`, main.ts lines 35-80) -/

/-- One cache entry: content, creation timestamp (ms), hit counter. -/
structure CacheEntry where
  content : String
  timestamp : Int
  hits : Nat
deriving DecidableEq

/-- The JS `Map` backing the cache, as an association list in insertion
order (JS `Map` iterates in insertion order; `set` on an existing key
updates in place, keeping the position). -/
abbrev Cache := List (String × CacheEntry)

/-- JS `Map.get`. -/
def mapGet : Cache → String → Option CacheEntry
  | [], _ => none
  | p :: rest, k => if p.1 == k then some p.2 else mapGet rest k

/-- JS `Map.set`: update in place when the key exists, else append. -/
def mapSet : Cache → String → CacheEntry → Cache
  | [], k, e => [(k, e)]
  | p :: rest, k, e => if p.1 == k then (k, e) :: rest else p :: mapSet rest k e

/-- JS `Map.delete`. -/
def mapDelete : Cache → String → Cache
  | [], _ => []
  | p :: rest, k => if p.1 == k then mapDelete rest k else p :: mapDelete rest k

/-- `SimpleCache.ttl = 1000 * 60 * 60` (one hour, in ms). -/
def cacheTtl : Int := 1000 * 60 * 60

/-- `SimpleCache.maxSize = 100`. -/
def cacheMaxSize : Nat := 100

/-- The eviction batch of `SimpleCache.set`: `maxSize * 0.2 = 20`. -/
def evictCount : Nat := cacheMaxSize / 5

/-- `SimpleCache.get` (main.ts lines 40-51): absent when no entry; an
entry older than the TTL is deleted and reported absent; otherwise the
hit counter is incremented in place and the content returned.  Returns
the result together with the updated map. -/
def cacheGet (c : Cache) (k : String) (now : Int) : Option String × Cache :=
  match mapGet c k with
  | none => (none, c)
  | some e =>
    if cacheTtl < now - e.timestamp then (none, mapDelete c k)
    else (some e.content, mapSet c k ⟨e.content, e.timestamp, e.hits + 1⟩)

/-- The comparator of the eviction sweep: ascending by creation
timestamp (`(a, b) => a[1].timestamp - b[1].timestamp`). -/
def tsLe (a b : String × CacheEntry) : Bool :=
  decide (a.2.timestamp ≤ b.2.timestamp)

/-- The eviction sweep of `SimpleCache.set` (main.ts lines 54-61): sort
the entries ascending by timestamp (JS `Array.prototype.sort` is stable,
as is `List.mergeSort`) and delete the first `evictCount` keys. -/
def evictOldest (c : Cache) : Cache :=
  let sorted := c.mergeSort tsLe
  let dead := (sorted.take evictCount).map Prod.fst
  c.filter (fun p => !(dead.contains p.1))

/-- `SimpleCache.set` (main.ts lines 53-68): evict when at capacity
(`size >= maxSize`), then insert the entry with `hits = 0`. -/
def cacheSet (c : Cache) (k : String) (content : String) (now : Int) : Cache :=
  let c1 := if cacheMaxSize ≤ c.length then evictOldest c else c
  mapSet c1 k ⟨content, now, 0⟩

/-- A cache operation, tagged with the clock value at which it runs. -/
inductive CacheOp
  | get (k : String) (now : Int)
  | set (k : String) (content : String) (now : Int)

/-- Apply one operation to the cache state. -/
def applyOp (c : Cache) : CacheOp → Cache
  | .get k now => (cacheGet c k now).2
  | .set k v now => cacheSet c k v now

/-- Run a sequence of operations from the initial empty cache (the cache
starts empty at process start, main.ts line 82). -/
def runOps (ops : List CacheOp) : Cache :=
  ops.foldl applyOp []

/-- The keys of a cache state, in order. -/
def keysOf (c : Cache) : List String := c.map Prod.fst

/- ### Retrieval coordinator (`getCleanedText`, main.ts lines 350-462) -/

/-- Behaviour of the one HTTP fetch a task performs on a cache miss: the
request can throw (network error or timeout abort — both are caught by
the task), or produce a response with a success flag, a `content-type`
header and a body. -/
inductive FetchStep
  | netThrow (msg : String)
  | response (ok : Bool) (contentType : String) (body : String)

/-- The per-URL world a fetch task runs against: the cache lookup result
for its key, the network behaviour on a miss, and the extractor output
on the body (`htmlToText`; `none` covers both a `null` `textContent`
and an extractor throw, which the task's catch turns into no document). -/
structure UrlEnv where
  cached : Option String
  step : FetchStep
  extractText : Option String

/-- Source attribution wrapper of a successful task (main.ts lines
422-429); the platform's ISO timestamp rendering is modelled as
`toString` of the clock value. -/
def attribution (url text : String) (now : Int) : String :=
  "📰 Source: " ++ url ++ "\n📊 Content length: " ++ toString text.length ++
  " characters\n📅 Fetched: " ++ toString now ++ "\n\n" ++ text ++ "\n\n" ++
  String.mk (List.replicate 80 '─') ++ "\n"

/-- The document produced by one fetch task (main.ts lines 358-447):
cache hit short-circuits; otherwise a thrown fetch, a non-success
status, a non-HTML content type, a body shorter than 100 characters,
a failed extraction or text shorter than 50 characters all yield no
document; otherwise the attributed text. -/
def taskDoc (e : UrlEnv) (url : String) (now : Int) : Option String :=
  match e.cached with
  | some cached => some cached
  | none =>
    match e.step with
    | .netThrow _ => none
    | .response ok ctype body =>
      if !ok then none
      else if !(containsSub ctype "text/html" || containsSub ctype "application/xhtml") then none
      else if body.length < 100 then none
      else
        match e.extractText with
        | none => none
        | some text =>
          if text.length < 50 then none
          else some (attribution url text now)

/-- Number of network fetches a task issues: none on a cache hit, one
otherwise. -/
def taskCalls (e : UrlEnv) : Nat :=
  match e.cached with
  | some _ => 0
  | none => 1

/-- `getCleanedText` (main.ts lines 350-462): empty input returns
immediately; otherwise one task per URL, `Promise.all`, and the `null`
results (failures) are filtered out.  Returns the surviving documents
(in input order, as `Promise.all` preserves order) and the number of
network fetches issued. -/
def getCleanedText (urls : List String) (env : String → UrlEnv) (now : Int) :
    List String × Nat :=
  if urls.isEmpty then ([], 0)
  else ((urls.map (fun u => taskDoc (env u) u now)).filterMap id,
        (urls.map (fun u => taskCalls (env u))).sum)

/- ### Summarizer (`answerQuery`, main.ts lines 510-635) -/

/-- The fallback chain (main.ts lines 512-519): the configured model
followed by the fixed preference list, with no deduplication. -/
def fallbackModels (configModel : String) : List String :=
  [configModel, "llama3.2:3b", "llama3.2:1b", "llama3.1:8b", "mistral:7b", "qwen2.5:7b"]

/-- `DEFAULT_CONFIG.ollamaModel` (main.ts line 130). -/
def defaultOllamaModel : String := "llama3.2:1b"

/-- Context-window tier selection (main.ts lines 529-531). -/
def contextSizeFor (contentLength : Nat) : Nat :=
  let c0 := 16000
  let c1 := if contentLength > 50000 then 32000 else c0
  if contentLength > 100000 then 65536 else c1

/-- The prompt template (main.ts lines 534-558), with the query and the
concatenated source content interpolated. -/
def enhancedPrompt (query combined : String) : String :=
  "# Web Search Query Analysis\n\n**Query:** \"" ++ query ++
  "\"\n\n**Task:** Provide a comprehensive, well-structured analysis based on the following web sources.\n\n## Source Content:\n"
  ++ combined ++
  "\n\n## Instructions:\n1. **Analyze the content** thoroughly and provide accurate information\n2. **Structure your response** with clear headings and sections\n3. **Cite key information** but don\x27t overwhelm with too many source references\n4. **Be objective** and present multiple perspectives when relevant\n5. **Highlight important facts** and key takeaways\n6. **Keep it comprehensive** but readable\n7. **Use markdown formatting** for better readability\n\n## Response Format:\n- Start with a brief summary (2-3 sentences)\n- Provide detailed analysis in organized sections\n- Include key facts, figures, and dates when available\n- End with key takeaways or implications\n\n**Begin your analysis:**"

/-- A completed generation: the model that produced it and its text. -/
structure GenSuccess where
  model : String
  text : String
deriving DecidableEq

/-- The exhausted-chain failure, carrying the last underlying error
(`lastError` in the source). -/
structure AQFailure where
  lastError : Option String
deriving DecidableEq

/-- The model loop of `answerQuery` (main.ts lines 560-623): try each
model in order; a successful generation returns at once; any error
(model not found, connection refused, anything else — all three catch
branches `continue`) records the error and advances to the next model,
with no retry of the same attempt.  Streaming is modelled at request
granularity: one generation request per model, succeeding with the full
text or failing.  Returns the list of issued requests (model, prompt)
in order, and the outcome. -/
def tryModels (bk : String → String → Except String String) (prompt : String) :
    List String → Option String → List (String × String) × Except AQFailure GenSuccess
  | [], lastErr => ([], .error ⟨lastErr⟩)
  | m :: rest, _ =>
    match bk m prompt with
    | .ok text => ([(m, prompt)], .ok ⟨m, text⟩)
    | .error e =>
      let r := tryModels bk prompt rest (some e)
      ((m, prompt) :: r.1, r.2)

/-- The observable result of `answerQuery`: the prompt it built, the
context size it selected, the generation requests it issued, and the
outcome. -/
structure AQResult where
  prompt : String
  contextSize : Nat
  attempts : List (String × String)
  outcome : Except AQFailure GenSuccess

/-- `answerQuery` (main.ts lines 510-635): join the documents with
newlines, build the prompt, and drive the fallback chain.  `bk` is the
inference backend (model and prompt to error or generated text). -/
def answerQuery (configModel query : String) (texts : List String)
    (bk : String → String → Except String String) : AQResult :=
  let combined := String.intercalate "\n" texts
  let prompt := enhancedPrompt query combined
  let r := tryModels bk prompt (fallbackModels configModel) none
  ⟨prompt, contextSizeFor combined.length, r.1, r.2⟩

/-- The console lines surfaced when every model failed (main.ts lines
628-632): remediation hints plus a reference to the last error. -/
def failureConsole (f : AQFailure) : List String :=
  ["❌ Unable to generate AI response. Please check:",
   "• Ollama is running: `ollama serve`",
   "• At least one model is available: `ollama list`",
   "• Install a model: `ollama pull llama3.2:1b`",
   "• Last error: " ++ f.lastError.getD "Unknown error"]

/-- The message of the error thrown after the chain is exhausted
(main.ts line 634). -/
def allModelsFailedMessage : String :=
  "AI response generation failed with all available models"

/- ### Concrete fixtures used by witness theorems -/

/-- Accumulator of `lastError` across a chain in which every model
fails: the error of the last model tried, or the incoming value for an
empty chain. -/
def lastErrAux (errf : String → String) : List String → Option String → Option String
  | [], le => le
  | m :: rest, _ => lastErrAux errf rest (some (errf m))

/-- Backend fixture: only the model named "modelC" succeeds. -/
def bkWit1 : String → String → Except String String :=
  fun m _ => if m == "modelC" then .ok "answer from C" else .error ("fail " ++ m)

/-- Backend fixture: every model reports itself missing. -/
def bkWit8 : String → String → Except String String :=
  fun m _ => .error ("no such model: " ++ m)

/-- Backend fixture: every generation request succeeds. -/
def bkWit9 : String → String → Except String String :=
  fun _ _ => .ok "no information found"

/-- Backend fixture: every generation request is refused. -/
def bkWit10 : String → String → Except String String :=
  fun _ _ => .error "connection refused"

/-- Per-URL world fixture: one URL succeeds with a long enough HTML body
and extracted text, every other URL fails with a thrown network error. -/
def envWit : String → UrlEnv := fun u =>
  if u == "https://a.example/ok" then
    ⟨none, .response true "text/html; charset=utf-8" (String.mk (List.replicate 120 'x')),
     some (String.mk (List.replicate 60 'y'))⟩
  else ⟨none, .netThrow "connection reset", none⟩

/-- A full cache (exactly `cacheMaxSize` entries, distinct keys,
ascending timestamps) for exercising the eviction path. -/
def cWit : Cache :=
  (List.range cacheMaxSize).map (fun i => (toString i, ⟨"v", (i : Int), 0⟩))

/- ### Helper lemmas -/

theorem isEligible_eq (u : String) :
    isEligible u = (jsURLParses u && !denyMatch u) := by
  unfold isEligible denyMatch
  generalize jsURLParses u = p
  generalize containsSub u "reddit.com/r/" = a
  generalize containsSub u "twitter.com" = b
  generalize containsSub u "facebook.com" = c
  generalize endsSub u ".pdf" = d
  generalize containsSub u "youtube.com/watch" = e
  revert p a b c d e
  decide

theorem tryModels_take (bk : String → String → Except String String) (p : String) :
    ∀ (chain : List String) (le : Option String),
      ∃ n, ((tryModels bk p chain le).1.map Prod.fst) = chain.take n := by
  intro chain
  induction chain with
  | nil => intro le; exact ⟨0, rfl⟩
  | cons m rest ih =>
    intro le
    cases h : bk m p with
    | ok t => exact ⟨1, by simp [tryModels, h]⟩
    | error e =>
      obtain ⟨n, hn⟩ := ih (some e)
      exact ⟨n + 1, by simp [tryModels, h, hn]⟩

theorem tryModels_cons_error (bk : String → String → Except String String)
    (p m : String) (rest : List String) (le : Option String) (e : String)
    (h : bk m p = .error e) :
    tryModels bk p (m :: rest) le
      = ((m, p) :: (tryModels bk p rest (some e)).1,
         (tryModels bk p rest (some e)).2) := by
  simp [tryModels, h]

theorem tryModels_allFail (bk : String → String → Except String String) (p : String)
    (errf : String → String) :
    ∀ (chain : List String) (le : Option String),
      (∀ m ∈ chain, bk m p = .error (errf m)) →
      tryModels bk p chain le
        = (chain.map (fun m => (m, p)), .error ⟨lastErrAux errf chain le⟩) := by
  intro chain
  induction chain with
  | nil => intro le _; rfl
  | cons m rest ih =>
    intro le hfail
    have hm : bk m p = .error (errf m) := hfail m (by simp)
    have hrest := ih (some (errf m)) (fun x hx => hfail x (by simp [hx]))
    simp [tryModels, hm, hrest, lastErrAux]

theorem mapGet_mapSet_self (c : Cache) (k : String) (e : CacheEntry) :
    mapGet (mapSet c k e) k = some e := by
  induction c with
  | nil => simp [mapSet, mapGet]
  | cons p rest ih =>
    by_cases h : p.1 == k
    · simp [mapSet, mapGet, h]
    · simp only [mapSet, mapGet, h]
      simp [Bool.not_eq_true] at h
      simp [mapGet, h, ih]

theorem mapGet_mapDelete_self (c : Cache) (k : String) :
    mapGet (mapDelete c k) k = none := by
  induction c with
  | nil => rfl
  | cons p rest ih =>
    by_cases h : p.1 == k
    · simp [mapDelete, h, ih]
    · simp [mapDelete, h, mapGet, ih]

theorem keysOf_cons (p : String × CacheEntry) (rest : Cache) :
    keysOf (p :: rest) = p.1 :: keysOf rest := rfl

theorem length_keysOf (c : Cache) : (keysOf c).length = c.length := by
  simp [keysOf]

theorem mapGet_eq_none_iff (c : Cache) (k : String) :
    mapGet c k = none ↔ k ∉ keysOf c := by
  induction c with
  | nil => simp [mapGet, keysOf]
  | cons p rest ih =>
    by_cases h : p.1 = k
    · subst h
      simp [mapGet, keysOf_cons]
    · have hb : (p.1 == k) = false := by simpa using h
      simp [mapGet, hb, keysOf_cons, ih, Ne.symm h]

theorem keysOf_mapSet (c : Cache) (k : String) (e : CacheEntry) :
    keysOf (mapSet c k e) = if k ∈ keysOf c then keysOf c else keysOf c ++ [k] := by
  induction c with
  | nil => simp [mapSet, keysOf]
  | cons p rest ih =>
    by_cases h : p.1 = k
    · subst h
      simp [mapSet, keysOf_cons]
    · have hb : (p.1 == k) = false := by simpa using h
      rw [mapSet]
      rw [hb]
      simp only [Bool.false_eq_true, if_false, keysOf_cons, ih]
      by_cases hm : k ∈ keysOf rest <;> simp [hm, Ne.symm h]

theorem keys_nodup_mapSet (c : Cache) (k : String) (e : CacheEntry)
    (h : (keysOf c).Nodup) : (keysOf (mapSet c k e)).Nodup := by
  rw [keysOf_mapSet]
  by_cases hm : k ∈ keysOf c
  · simpa [hm] using h
  · simp [hm, List.nodup_append, h]

theorem length_mapSet_le (c : Cache) (k : String) (e : CacheEntry) :
    (mapSet c k e).length ≤ c.length + 1 := by
  induction c with
  | nil => simp [mapSet]
  | cons p rest ih =>
    by_cases h : p.1 == k
    · simp [mapSet, h]
    · simp only [mapSet, h, Bool.false_eq_true, if_false, List.length_cons]
      omega

theorem length_mapSet_mem (c : Cache) (k : String) (e : CacheEntry)
    (h : k ∈ keysOf c) : (mapSet c k e).length = c.length := by
  have hk := keysOf_mapSet c k e
  rw [if_pos h] at hk
  have h2 := congrArg List.length hk
  simpa [length_keysOf] using h2

theorem mapDelete_sublist (c : Cache) (k : String) :
    List.Sublist (mapDelete c k) c := by
  induction c with
  | nil => simp [mapDelete]
  | cons p rest ih =>
    by_cases h : p.1 == k
    · simp only [mapDelete, h, if_true]
      exact ih.trans (List.sublist_cons_self p rest)
    · simp only [mapDelete, h, Bool.false_eq_true, if_false]
      exact ih.cons₂ p

theorem evict_sublist (c : Cache) : List.Sublist (evictOldest c) c := by
  unfold evictOldest
  exact List.filter_sublist c

theorem tsLe_trans (a b c : String × CacheEntry) :
    tsLe a b = true → tsLe b c = true → tsLe a c = true := by
  simp [tsLe]
  omega

theorem tsLe_total (a b : String × CacheEntry) :
    (tsLe a b || tsLe b a) = true := by
  simp [tsLe]
  omega

theorem evict_perm (c : Cache) (h : (keysOf c).Nodup) :
    (evictOldest c).Perm ((c.mergeSort tsLe).drop evictCount) := by
  show (c.filter
      (fun p => !((((c.mergeSort tsLe).take evictCount).map Prod.fst).contains p.1))).Perm
    ((c.mergeSort tsLe).drop evictCount)
  set s := c.mergeSort tsLe with hs
  set dead := (s.take evictCount).map Prod.fst with hdead
  have hperm : s.Perm c := List.mergeSort_perm c tsLe
  have hkeys : (keysOf s).Nodup := h.perm ((hperm.map Prod.fst)).symm
  have hdisj : List.Disjoint ((s.take evictCount).map Prod.fst)
      ((s.drop evictCount).map Prod.fst) := by
    apply List.disjoint_of_nodup_append
    have hk2 : keysOf s
        = (s.take evictCount).map Prod.fst ++ (s.drop evictCount).map Prod.fst := by
      rw [← List.map_append, List.take_append_drop]
      rfl
    rw [← hk2]
    exact hkeys
  have htake : List.filter (fun p => !(dead.contains p.1)) (s.take evictCount) = [] := by
    rw [List.filter_eq_nil_iff]
    intro p hp
    have hm : p.1 ∈ dead := by
      rw [hdead]
      exact List.mem_map_of_mem Prod.fst hp
    simp [hm]
  have hdropf : List.filter (fun p => !(dead.contains p.1)) (s.drop evictCount)
      = s.drop evictCount := by
    rw [List.filter_eq_self]
    intro p hp
    have hm : p.1 ∉ dead := by
      rw [hdead]
      intro hmem
      exact hdisj hmem (List.mem_map_of_mem Prod.fst hp)
    simp [hm]
  have h1 : (List.filter (fun p => !(dead.contains p.1)) c).Perm
      (List.filter (fun p => !(dead.contains p.1)) s) := (List.Perm.filter _ hperm).symm
  have hsplit : s.take evictCount ++ s.drop evictCount = s := List.take_append_drop _ _
  rw [← hsplit, List.filter_append, htake, hdropf, List.nil_append] at h1
  exact h1

theorem evict_length (c : Cache) (h : (keysOf c).Nodup) :
    (evictOldest c).length = c.length - evictCount := by
  rw [(evict_perm c h).length_eq, List.length_drop,
    (List.mergeSort_perm c tsLe).length_eq]

theorem evict_retention (c : Cache) (h : (keysOf c).Nodup) :
    ∀ p ∈ c, p ∉ evictOldest c → ∀ q ∈ evictOldest c,
      p.2.timestamp ≤ q.2.timestamp := by
  intro p hp hpn q hq
  have hperm := evict_perm c h
  have hsperm := List.mergeSort_perm c tsLe
  have hq2 : q ∈ (c.mergeSort tsLe).drop evictCount := hperm.mem_iff.mp hq
  have hp2 : p ∈ c.mergeSort tsLe := hsperm.mem_iff.mpr hp
  have hpn2 : p ∉ (c.mergeSort tsLe).drop evictCount :=
    fun hm => hpn (hperm.mem_iff.mpr hm)
  have hptake : p ∈ (c.mergeSort tsLe).take evictCount := by
    have hsplit : (c.mergeSort tsLe).take evictCount ++ (c.mergeSort tsLe).drop evictCount
        = c.mergeSort tsLe := List.take_append_drop _ _
    rw [← hsplit] at hp2
    rcases List.mem_append.mp hp2 with h1 | h2
    · exact h1
    · exact absurd h2 hpn2
  have hsorted : List.Pairwise (fun a b => tsLe a b = true) (c.mergeSort tsLe) :=
    List.sorted_mergeSort tsLe_trans tsLe_total c
  rw [← List.take_append_drop evictCount (c.mergeSort tsLe)] at hsorted
  have hle := (List.pairwise_append.mp hsorted).2.2 p hptake q hq2
  simpa [tsLe] using hle

theorem goodCache_apply (c : Cache) (op : CacheOp)
    (h : (keysOf c).Nodup ∧ c.length ≤ cacheMaxSize) :
    (keysOf (applyOp c op)).Nodup ∧ (applyOp c op).length ≤ cacheMaxSize := by
  obtain ⟨hnd, hlen⟩ := h
  cases op with
  | get k now =>
    have hstate : applyOp c (.get k now) = (cacheGet c k now).2 := rfl
    rw [hstate]
    cases hm : mapGet c k with
    | none => simp [cacheGet, hm]; exact ⟨hnd, hlen⟩
    | some e =>
      by_cases hexp : cacheTtl < now - e.timestamp
      · simp only [cacheGet, hm, hexp, if_true]
        exact ⟨hnd.sublist ((mapDelete_sublist c k).map Prod.fst),
          le_trans (mapDelete_sublist c k).length_le hlen⟩
      · simp only [cacheGet, hm, hexp, if_false]
        have hkmem : k ∈ keysOf c := by
          by_contra hmem
          rw [← mapGet_eq_none_iff] at hmem
          rw [hmem] at hm
          exact Option.noConfusion hm
        refine ⟨keys_nodup_mapSet _ _ _ hnd, ?_⟩
        rw [length_mapSet_mem _ _ _ hkmem]
        exact hlen
  | set k v now =>
    have hstate : applyOp c (.set k v now) = cacheSet c k v now := rfl
    rw [hstate]
    by_cases hcap : cacheMaxSize ≤ c.length
    · have hset : cacheSet c k v now = mapSet (evictOldest c) k ⟨v, now, 0⟩ := by
        simp [cacheSet, hcap]
      rw [hset]
      have hnd1 : (keysOf (evictOldest c)).Nodup :=
        hnd.sublist ((evict_sublist c).map Prod.fst)
      have hlen1 : (evictOldest c).length = c.length - evictCount := evict_length c hnd
      refine ⟨keys_nodup_mapSet _ _ _ hnd1, ?_⟩
      have hle := length_mapSet_le (evictOldest c) k ⟨v, now, 0⟩
      rw [hlen1] at hle
      have hc : evictCount = 20 := rfl
      have hmx : cacheMaxSize = 100 := rfl
      omega
    · have hset : cacheSet c k v now = mapSet c k ⟨v, now, 0⟩ := by
        simp [cacheSet, hcap]
      rw [hset]
      refine ⟨keys_nodup_mapSet _ _ _ hnd, ?_⟩
      have hle := length_mapSet_le c k ⟨v, now, 0⟩
      have hmx : cacheMaxSize = 100 := rfl
      omega

theorem goodCache_foldl (ops : List CacheOp) :
    ∀ c : Cache, (keysOf c).Nodup ∧ c.length ≤ cacheMaxSize →
      (keysOf (ops.foldl applyOp c)).Nodup ∧ (ops.foldl applyOp c).length ≤ cacheMaxSize := by
  induction ops with
  | nil => intro c h; exact h
  | cons op rest ih =>
    intro c h
    exact ih _ (goodCache_apply c op h)

theorem length_filterMap_eq_countP {α β : Type} (f : α → Option β) (l : List α) :
    (l.filterMap f).length = l.countP (fun a => (f a).isSome) := by
  induction l with
  | nil => rfl
  | cons a rest ih =>
    cases h : f a <;> simp [List.filterMap_cons, List.countP_cons, h, ih]

/- ### Claim theorems -/

/-- Claim C1: the Summarizer tries the models of a chain strictly in
chain order, advances to the next model on any request-level failure
without retrying the failed model, and stops at the first model whose
generation succeeds: for a chain `[A, B, C]` where `A` and `B` fail and
`C` succeeds, the requests issued are exactly `A`, `B`, `C` (each once,
in order) and the outcome is the generation produced by `C`; moreover,
for every chain and backend, the models attempted form an initial
segment of the chain. -/
theorem summarizer_fallback_chain (bk : String → String → Except String String)
    (p A B C ea eb g : String)
    (hA : bk A p = .error ea) (hB : bk B p = .error eb) (hC : bk C p = .ok g) :
    tryModels bk p [A, B, C] none = ([(A, p), (B, p), (C, p)], .ok ⟨C, g⟩)
    ∧ (∀ (chain : List String) (le : Option String), ∃ n,
        ((tryModels bk p chain le).1.map Prod.fst) = chain.take n) :=
  ⟨by simp [tryModels, hA, hB, hC], tryModels_take bk p⟩

/-- Witness for claim C1 at a concrete three-model chain and backend. -/
theorem summarizer_fallback_chain_witness :
    tryModels bkWit1 "p" ["modelA", "modelB", "modelC"] none
      = ([("modelA", "p"), ("modelB", "p"), ("modelC", "p")],
         .ok ⟨"modelC", "answer from C"⟩) :=
  (summarizer_fallback_chain bkWit1 "p" "modelA" "modelB" "modelC"
    "fail modelA" "fail modelB" "answer from C" rfl rfl rfl).1

/-- Claim C2: the retrieval coordinator returns exactly the documents of
the successful fetch tasks (one per success, in order); the result
depends only on each task's produced document, so failure details never
affect the successes; a thrown fetch inside a task is converted to
"no document" rather than propagating; and the empty URL list returns
an empty sequence with zero network calls. -/
theorem retrieval_coordinator (urls : List String) (env env2 : String → UrlEnv) (now : Int)
    (hagree : ∀ u ∈ urls, taskDoc (env u) u now = taskDoc (env2 u) u now) :
    (getCleanedText urls env now).1 = urls.filterMap (fun u => taskDoc (env u) u now)
    ∧ (getCleanedText urls env now).1.length
        = urls.countP (fun u => (taskDoc (env u) u now).isSome)
    ∧ (getCleanedText urls env now).1 = (getCleanedText urls env2 now).1
    ∧ (∀ (e : UrlEnv) (u msg : String),
        e.cached = none → e.step = .netThrow msg → taskDoc e u now = none)
    ∧ getCleanedText [] env now = ([], 0) := by
  have hmain : ∀ e3 : String → UrlEnv,
      (getCleanedText urls e3 now).1 = urls.filterMap (fun u => taskDoc (e3 u) u now) := by
    intro e3
    by_cases h : urls.isEmpty
    · rw [List.isEmpty_iff] at h
      subst h
      rfl
    · simp only [getCleanedText, h, if_false]
      rw [List.filterMap_map]
      rfl
  refine ⟨hmain env, ?_, ?_, ?_, rfl⟩
  · rw [hmain env, length_filterMap_eq_countP]
  · rw [hmain env, hmain env2]
    exact List.filterMap_congr hagree
  · intro e u msg h1 h2
    unfold taskDoc
    rw [h1, h2]

/-- Witness for claim C2 at a concrete two-URL run (one success, one
thrown network failure). -/
theorem retrieval_coordinator_witness :
    (getCleanedText ["https://a.example/ok", "https://b.example/fail"] envWit 0).1
      = ["https://a.example/ok", "https://b.example/fail"].filterMap
          (fun u => taskDoc (envWit u) u 0)
    ∧ getCleanedText [] envWit 0 = ([], 0) := by
  have h := retrieval_coordinator ["https://a.example/ok", "https://b.example/fail"]
    envWit envWit 0 (fun u _ => rfl)
  exact ⟨h.1, h.2.2.2.2⟩

/-- Counterexample for claim C3: the claim also asserts that every
string without a network scheme is rejected, but the code only requires
`new URL(u)` to succeed — `mailto:user@example.com` parses with a
non-network scheme, matches no denylist pattern, and is accepted. -/
theorem url_filter_counterexample :
    ¬ (∀ u : String, hasNetworkScheme u = false → isEligible u = false) := by
  intro hclaim
  have h := hclaim "mailto:user@example.com" (by decide)
  exact (by decide : ¬ (isEligible "mailto:user@example.com" = false)) h

/-- Claim C3 (amended): a URL matching a denylist pattern is rejected; a
string that fails to parse as an absolute URL (any scheme) is rejected;
and a parseable absolute URL matching no denylist pattern is accepted. -/
theorem url_filter_characterization (u : String) :
    (denyMatch u = true → isEligible u = false)
    ∧ (jsURLParses u = false → isEligible u = false)
    ∧ (jsURLParses u = true → denyMatch u = false → isEligible u = true) := by
  refine ⟨fun h => ?_, fun h => ?_, fun h1 h2 => ?_⟩
  · simp [isEligible_eq, h]
  · simp [isEligible_eq, h]
  · simp [isEligible_eq, h1, h2]

/-- Witness for the amended claim C3 at concrete URLs. -/
theorem url_filter_characterization_witness :
    isEligible "https://reddit.com/r/foo" = false
    ∧ isEligible "not a url" = false
    ∧ isEligible "https://example.com/news" = true :=
  ⟨(url_filter_characterization "https://reddit.com/r/foo").1 (by decide),
   (url_filter_characterization "not a url").2.1 (by decide),
   (url_filter_characterization "https://example.com/news").2.2 (by decide) (by decide)⟩

/-- Claim C4: on a parseable response the search stage returns the
result URLs passed through the URL filter in backend order and then
truncated: at most `maxResults` elements, every element eligible, and
the output a sublist (order-preserving) of the backend's URL list. -/
theorem search_filter_truncate (rs : List SearchResult) (mr status : Nat) :
    getNewsUrls (.response status true (.parsed (some rs))) mr = .ok (selectUrls rs mr)
    ∧ (selectUrls rs mr).length ≤ mr
    ∧ (∀ u ∈ selectUrls rs mr, isEligible u = true)
    ∧ List.Sublist (selectUrls rs mr) (rs.map (fun r => r.url)) := by
  refine ⟨?_, ?_, ?_, ?_⟩
  · cases rs with
    | nil => simp [getNewsUrls, selectUrls]
    | cons r rest => simp [getNewsUrls]
  · simp [selectUrls]
  · intro u hu
    unfold selectUrls at hu
    have hu' := List.mem_of_mem_take hu
    obtain ⟨r, hr, rfl⟩ := List.mem_map.mp hu'
    exact (List.mem_filter.mp hr).2
  · exact (List.take_sublist _ _).trans ((List.filter_sublist rs).map _)

/-- Witness for claim C4 at a concrete result list. -/
theorem search_filter_truncate_witness :
    (∀ u ∈ selectUrls [⟨"https://example.com/a"⟩, ⟨"https://twitter.com/b"⟩] 5,
      isEligible u = true)
    ∧ getNewsUrls (.response 200 true (.parsed (some [⟨"https://example.com/a"⟩]))) 5
        = .ok (selectUrls [⟨"https://example.com/a"⟩] 5) :=
  ⟨(search_filter_truncate [⟨"https://example.com/a"⟩, ⟨"https://twitter.com/b"⟩] 5 200).2.2.1,
   (search_filter_truncate [⟨"https://example.com/a"⟩] 5 200).1⟩

/-- Counterexample for claim C5: a network-level request failure
(connection refused) makes the stage fail even though it is none of the
claim's enumerated failure conditions, so the "only if" direction of
the claim is false. -/
theorem search_failure_counterexample :
    (getNewsUrls (SearchNet.netError "ECONNREFUSED") 5).isOk = false
    ∧ claimedSearchFailure (SearchNet.netError "ECONNREFUSED") = false :=
  ⟨rfl, rfl⟩

/-- Claim C5 (amended): the search stage fails exactly on a non-success
HTTP status, a timeout, a network-level request error, or a
malformed/empty body; a parseable response with an empty (or missing)
`results` array is a zero-length success. -/
theorem search_failure_characterization (net : SearchNet) (mr : Nat) :
    ((getNewsUrls net mr).isOk = false ↔ searchFailure net = true)
    ∧ (∀ s, getNewsUrls (.response s true (.parsed (some []))) mr = .ok [])
    ∧ (∀ s, getNewsUrls (.response s true (.parsed none)) mr = .ok []) := by
  refine ⟨?_, fun s => rfl, fun s => rfl⟩
  cases net with
  | timeout => simp [getNewsUrls, searchFailure, Except.isOk, Except.toBool]
  | netError m => simp [getNewsUrls, searchFailure, Except.isOk, Except.toBool]
  | response s ok body =>
    cases ok <;> cases body <;>
      simp [getNewsUrls, searchFailure, Except.isOk, Except.toBool]
    case true.parsed o =>
      cases o with
      | none => simp [Except.isOk, Except.toBool]
      | some rs =>
        by_cases h : rs = [] <;> simp [h, Except.isOk, Except.toBool]

/-- Witness for the amended claim C5 at concrete network outcomes. -/
theorem search_failure_characterization_witness :
    ((getNewsUrls SearchNet.timeout 5).isOk = false ↔ searchFailure SearchNet.timeout = true)
    ∧ getNewsUrls (.response 200 true (.parsed (some []))) 5 = .ok [] :=
  ⟨(search_failure_characterization SearchNet.timeout 5).1,
   (search_failure_characterization SearchNet.timeout 5).2.1 200⟩

/-- Claim C6: after `set k v` at time `T`, a `get k` at time `t` with
`t - T ≤ ttl` returns `v` and increments the entry's hit counter; with
`t - T > ttl` it returns absent and removes the entry; and `get` on a
key that is not present returns absent and leaves the cache unchanged. -/
theorem cache_roundtrip_ttl (c : Cache) (k v : String) (T t : Int) :
    (t - T ≤ cacheTtl →
      (cacheGet (cacheSet c k v T) k t).1 = some v
      ∧ mapGet (cacheGet (cacheSet c k v T) k t).2 k = some ⟨v, T, 1⟩)
    ∧ (cacheTtl < t - T →
      (cacheGet (cacheSet c k v T) k t).1 = none
      ∧ mapGet (cacheGet (cacheSet c k v T) k t).2 k = none)
    ∧ (mapGet c k = none → cacheGet c k t = (none, c)) := by
  have hset : mapGet (cacheSet c k v T) k = some ⟨v, T, 0⟩ := mapGet_mapSet_self _ _ _
  refine ⟨fun hle => ?_, fun hgt => ?_, fun hnone => ?_⟩
  · have hcond : ¬ (cacheTtl < t - T) := not_lt.mpr hle
    constructor
    · simp [cacheGet, hset, hcond]
    · simp [cacheGet, hset, hcond, mapGet_mapSet_self]
  · constructor
    · simp [cacheGet, hset, hgt]
    · simp [cacheGet, hset, hgt, mapGet_mapDelete_self]
  · simp [cacheGet, hnone]

/-- Witness for claim C6 at concrete times around the TTL boundary. -/
theorem cache_roundtrip_ttl_witness :
    (cacheGet (cacheSet [] "k" "v" 0) "k" 5).1 = some "v"
    ∧ (cacheGet (cacheSet [] "k" "v" 0) "k" (cacheTtl + 1)).1 = none
    ∧ cacheGet [] "nokey" 0 = (none, []) :=
  ⟨((cache_roundtrip_ttl [] "k" "v" 0 5).1 (by decide)).1,
   ((cache_roundtrip_ttl [] "k" "v" 0 (cacheTtl + 1)).2.1 (by decide)).1,
   (cache_roundtrip_ttl [] "nokey" "v" 0 0).2.2 rfl⟩

/-- Claim C7: over every operation sequence from the empty cache the
size never exceeds the ceiling of 100; and a `set` on a cache at
capacity first evicts the 20 oldest entries by creation timestamp
(every evicted entry is no newer than every retained one) and then
inserts the new entry with hit count 0. -/
theorem cache_capacity_invariant :
    (∀ ops : List CacheOp, (runOps ops).length ≤ cacheMaxSize)
    ∧ (∀ (c : Cache) (k v : String) (now : Int),
        (keysOf c).Nodup → cacheMaxSize ≤ c.length →
          cacheSet c k v now = mapSet (evictOldest c) k ⟨v, now, 0⟩
          ∧ mapGet (cacheSet c k v now) k = some ⟨v, now, 0⟩
          ∧ (evictOldest c).length = c.length - evictCount
          ∧ (∀ p ∈ c, p ∉ evictOldest c → ∀ q ∈ evictOldest c,
              p.2.timestamp ≤ q.2.timestamp)) := by
  constructor
  · intro ops
    exact (goodCache_foldl ops [] ⟨List.nodup_nil, by simp [cacheMaxSize]⟩).2
  · intro c k v now hnd hcap
    exact ⟨by simp [cacheSet, hcap], mapGet_mapSet_self _ _ _,
      evict_length c hnd, evict_retention c hnd⟩

/-- Witness for claim C7 on a concrete full cache of 100 entries. -/
theorem cache_capacity_invariant_witness :
    (runOps []).length ≤ cacheMaxSize
    ∧ (cacheSet cWit "newkey" "v" 1000 = mapSet (evictOldest cWit) "newkey" ⟨"v", 1000, 0⟩
       ∧ mapGet (cacheSet cWit "newkey" "v" 1000) "newkey" = some ⟨"v", 1000, 0⟩
       ∧ (evictOldest cWit).length = cWit.length - evictCount
       ∧ (∀ p ∈ cWit, p ∉ evictOldest cWit → ∀ q ∈ evictOldest cWit,
           p.2.timestamp ≤ q.2.timestamp)) :=
  ⟨cache_capacity_invariant.1 [],
   cache_capacity_invariant.2 cWit "newkey" "v" 1000 (by decide) (by decide)⟩

/-- Claim C8: when every model in the chain fails, the Summarizer
terminates in failure; the failure carries the last underlying error
(the error of the last model in the chain), and the surfaced console
output contains the remediation hints and a line referencing that last
error. -/
theorem answerQuery_all_models_fail (cm q : String) (texts : List String)
    (bk : String → String → Except String String) (errf : String → String)
    (hfail : ∀ m ∈ fallbackModels cm,
      bk m (enhancedPrompt q (String.intercalate "\n" texts)) = .error (errf m)) :
    (answerQuery cm q texts bk).outcome = .error ⟨some (errf "qwen2.5:7b")⟩
    ∧ ("• Last error: " ++ errf "qwen2.5:7b")
        ∈ failureConsole ⟨some (errf "qwen2.5:7b")⟩
    ∧ "• Ollama is running: `ollama serve`"
        ∈ failureConsole ⟨some (errf "qwen2.5:7b")⟩
    ∧ "• At least one model is available: `ollama list`"
        ∈ failureConsole ⟨some (errf "qwen2.5:7b")⟩ := by
  have h := tryModels_allFail bk (enhancedPrompt q (String.intercalate "\n" texts)) errf
    (fallbackModels cm) none hfail
  refine ⟨?_, ?_, ?_, ?_⟩
  · have houtcome : (answerQuery cm q texts bk).outcome
        = (tryModels bk (enhancedPrompt q (String.intercalate "\n" texts))
            (fallbackModels cm) none).2 := rfl
    rw [houtcome, h]
    rfl
  · simp [failureConsole]
  · simp [failureConsole]
  · simp [failureConsole]

/-- Witness for claim C8 with a backend on which every model fails. -/
theorem answerQuery_all_models_fail_witness :
    (answerQuery "llama3.2:1b" "q" [] bkWit8).outcome
      = .error ⟨some ("no such model: " ++ "qwen2.5:7b")⟩ :=
  (answerQuery_all_models_fail "llama3.2:1b" "q" [] bkWit8
    (fun m => "no such model: " ++ m) (fun _ _ => rfl)).1

/-- Claim C9: invoked with an empty document list, the Summarizer still
issues a generation request — the first request goes to the configured
model with the prompt built from the query and empty source content —
rather than short-circuiting. -/
theorem answerQuery_empty_documents (cm q : String)
    (bk : String → String → Except String String) :
    (answerQuery cm q [] bk).attempts ≠ []
    ∧ (answerQuery cm q [] bk).attempts.head? = some (cm, enhancedPrompt q "")
    ∧ (answerQuery cm q [] bk).prompt = enhancedPrompt q "" := by
  have hempty : String.intercalate "\n" ([] : List String) = "" := rfl
  refine ⟨?_, ?_, ?_⟩
  · cases h : bk cm (enhancedPrompt q "") <;>
      simp [answerQuery, hempty, fallbackModels, tryModels, h]
  · cases h : bk cm (enhancedPrompt q "") <;>
      simp [answerQuery, hempty, fallbackModels, tryModels, h]
  · rfl

/-- Witness for claim C9 at a concrete query and backend. -/
theorem answerQuery_empty_documents_witness :
    (answerQuery "llama3.2:1b" "test query" [] bkWit9).attempts ≠ []
    ∧ (answerQuery "llama3.2:1b" "test query" [] bkWit9).attempts.head?
        = some ("llama3.2:1b", enhancedPrompt "test query" "")
    ∧ (answerQuery "llama3.2:1b" "test query" [] bkWit9).prompt
        = enhancedPrompt "test query" "" :=
  answerQuery_empty_documents "llama3.2:1b" "test query" bkWit9

/-- Claim C10: the fallback chain is the configured model prepended to
the fixed list without deduplication, so under the default
configuration (`llama3.2:1b`) that model occurs twice in the chain, and
when it and the second model fail it is attempted exactly twice. -/
theorem duplicate_default_model_attempted_twice
    (bk : String → String → Except String String) (p e1 e2 : String)
    (h1 : bk "llama3.2:1b" p = .error e1) (h2 : bk "llama3.2:3b" p = .error e2) :
    (fallbackModels defaultOllamaModel).count "llama3.2:1b" = 2
    ∧ ((tryModels bk p (fallbackModels defaultOllamaModel) none).1.map Prod.fst).count
        "llama3.2:1b" = 2 := by
  refine ⟨by decide, ?_⟩
  obtain ⟨n, hn⟩ := tryModels_take bk p ["llama3.1:8b", "mistral:7b", "qwen2.5:7b"] (some e1)
  have hz : (["llama3.1:8b", "mistral:7b", "qwen2.5:7b"].take n).count "llama3.2:1b" = 0 :=
    Nat.le_zero.mp (le_of_le_of_eq
      ((List.take_sublist n _).count_le "llama3.2:1b") (by decide))
  have hchain : fallbackModels defaultOllamaModel
      = "llama3.2:1b" :: "llama3.2:3b" :: "llama3.2:1b"
        :: ["llama3.1:8b", "mistral:7b", "qwen2.5:7b"] := rfl
  rw [hchain, tryModels_cons_error bk p _ _ _ _ h1, tryModels_cons_error bk p _ _ _ _ h2,
    tryModels_cons_error bk p _ _ _ _ h1]
  simp +decide [hn, List.count_cons, hz]

/-- Witness for claim C10 with a backend on which every request fails. -/
theorem duplicate_default_model_witness :
    ((tryModels bkWit10 "p" (fallbackModels defaultOllamaModel) none).1.map Prod.fst).count
        "llama3.2:1b" = 2 :=
  (duplicate_default_model_attempted_twice bkWit10 "p" "connection refused"
    "connection refused" rfl rfl).2
